import Mathlib

/-!
Verification of the FSM (finite-state audit-log) subsystem of this repository:
a shallow embedding of `fsm/state_manager.py`, `fsm/models.py`, `fsm/registry.py`,
`fsm/transitions.py`, `fsm/transition_utils.py`, `fsm/serializers.py` and
`fsm/api.py`, scoped to a single entity (all cache keys and persistence queries
in the source are per-entity, so one entity's slice of the runtime state is a
faithful unit of reasoning).

States are strings; the persistence substrate is the list of the entity's state
records in insertion order; the cache substrate holds the optional cached
current-state string for the entity's cache key.
-/

namespace LSFsm

/-- One immutable state record, as stored by `BaseState` subclasses
(`fsm/models.py`): UUID7 primary key (modelled as a `Nat` sort key), the state
label, the previous state, the audit transition name, the free-text reason, and
the denormalized fields computed at write time. -/
structure StateRecord where
  id : Nat
  state : String
  previous_state : Option String
  transition_name : Option String
  reason : String
  denorm_fields : List (String × String)
  deriving Repr, DecidableEq

/-- Per-entity slice of the runtime state that `StateManager` touches:
the entity's state records (persistence substrate, in insertion order), the
cached scalar current-state string for the entity's cache key, whether a state
model is registered for the entity's type in `STATE_MODEL_REGISTRY`, and the
next fresh sort key the identifier generator will mint.

The identifier generator itself (`generate_uuid7` in `fsm/utils.py`) is not in
the source tree; it is modelled from the spec (section 4.1): fresh identifiers
are monotonically time-ordered, so a freshly minted id is strictly larger than
every id already present. -/
structure EntityState where
  records : List StateRecord
  cache : Option String
  registered : Bool
  nextId : Nat
  deriving Repr, DecidableEq

/-- Insert a record into a list kept in descending-id order. Helper for
`orderByIdDesc`. -/
def insertByIdDesc (r : StateRecord) : List StateRecord → List StateRecord
  | [] => [r]
  | x :: xs => if x.id ≤ r.id then r :: x :: xs else x :: insertByIdDesc r xs

/-- The persistence substrate's `.order_by('-id')` query: the records sorted by
descending id. -/
def orderByIdDesc : List StateRecord → List StateRecord
  | [] => []
  | x :: xs => insertByIdDesc x (orderByIdDesc xs)

/-- The `state` field of the record with the numerically largest id, the
operational definition of *current state*
(`.order_by('-id').values_list('state', flat=True).first()` in
`StateManager.get_current_state`). -/
def maxIdState (records : List StateRecord) : Option String :=
  (orderByIdDesc records).head?.map (fun r => r.state)

/-- Result of `StateManager.get_current_state`: the returned value, the
post-state (the cache may have been warmed), and how many persistence-substrate
queries the call issued (for the cache-hit instrumentation of section 8). -/
structure ReadResult where
  value : Option String
  post : EntityState
  dbQueries : Nat
  deriving Repr, DecidableEq

/-- `StateManager.get_current_state` (`fsm/state_manager.py` lines 64-114):
cache first; on a miss, fail with `None` if no state model is registered;
otherwise query the substrate for the max-id record's state. The query can
raise (`readFails`), in which case the exception is caught, `None` is returned
and nothing is cached. A non-`None` result is written back to the cache. -/
def getCurrentState (σ : EntityState) (readFails : Bool) : ReadResult :=
  match σ.cache with
  | some s => ⟨some s, σ, 0⟩
  | none =>
    if σ.registered = false then ⟨none, σ, 0⟩
    else if readFails then ⟨none, σ, 1⟩
    else
      match (orderByIdDesc σ.records).head? with
      | some r => ⟨some r.state, { σ with cache := some r.state }, 1⟩
      | none => ⟨none, σ, 1⟩

/-- `StateManager.invalidate_cache`: delete the entity's cache entry. -/
def invalidateCache (σ : EntityState) : EntityState :=
  { σ with cache := none }

/-- `StateManager.get_state_history` (`fsm/state_manager.py` lines 227-244):
empty if no state model is registered, otherwise the records ordered newest
first, truncated to `limit`. -/
def getStateHistory (σ : EntityState) (limit : Nat) : List StateRecord :=
  if σ.registered = false then []
  else (orderByIdDesc σ.records).take limit

section SortLemmas

theorem insertByIdDesc_length (r : StateRecord) (l : List StateRecord) :
    (insertByIdDesc r l).length = l.length + 1 := by
  induction l with
  | nil => rfl
  | cons x xs ih =>
    unfold insertByIdDesc
    by_cases h : x.id ≤ r.id
    · simp [h]
    · simp [h, ih]

theorem orderByIdDesc_length (l : List StateRecord) :
    (orderByIdDesc l).length = l.length := by
  induction l with
  | nil => rfl
  | cons x xs ih => simp [orderByIdDesc, insertByIdDesc_length, ih]

theorem orderByIdDesc_eq_nil_iff (l : List StateRecord) :
    orderByIdDesc l = [] ↔ l = [] := by
  constructor
  · intro h
    have := orderByIdDesc_length l
    rw [h] at this
    exact List.length_eq_zero.mp this.symm
  · intro h; subst h; rfl

theorem insertByIdDesc_of_lt (r : StateRecord) (l : List StateRecord)
    (h : ∀ x ∈ l, r.id < x.id) : insertByIdDesc r l = l ++ [r] := by
  induction l with
  | nil => rfl
  | cons x xs ih =>
    have hx : ¬ x.id ≤ r.id := Nat.not_le.mpr (h x (List.mem_cons_self x xs))
    simp only [insertByIdDesc, if_neg hx, List.cons_append, List.cons.injEq, true_and]
    exact ih (fun y hy => h y (List.mem_cons_of_mem x hy))

/-- Sorting a list whose ids are already strictly increasing by descending id
reverses it. -/
theorem orderByIdDesc_of_pairwise (l : List StateRecord)
    (h : l.Pairwise (fun a b => a.id < b.id)) :
    orderByIdDesc l = l.reverse := by
  induction l with
  | nil => rfl
  | cons x xs ih =>
    rcases List.pairwise_cons.mp h with ⟨hx, hxs⟩
    have : orderByIdDesc (x :: xs) = insertByIdDesc x (orderByIdDesc xs) := rfl
    rw [this, ih hxs, insertByIdDesc_of_lt]
    · simp
    · intro y hy
      exact hx y (List.mem_reverse.mp hy)

end SortLemmas

section ReadLemmas

theorem getCurrentState_records (σ : EntityState) (b : Bool) :
    (getCurrentState σ b).post.records = σ.records := by
  unfold getCurrentState
  rcases hc : σ.cache with _ | s
  · by_cases hr : σ.registered = false
    · simp [hr]
    · by_cases hb : b
      · simp [hr, hb]
      · rcases hh : (orderByIdDesc σ.records).head? with _ | r <;> simp [hr, hb, hh]
  · rfl

theorem getCurrentState_registered (σ : EntityState) (b : Bool) :
    (getCurrentState σ b).post.registered = σ.registered := by
  unfold getCurrentState
  rcases hc : σ.cache with _ | s
  · by_cases hr : σ.registered = false
    · simp [hr]
    · by_cases hb : b
      · simp [hr, hb]
      · rcases hh : (orderByIdDesc σ.records).head? with _ | r <;> simp [hr, hb, hh]
  · rfl

theorem getCurrentState_nextId (σ : EntityState) (b : Bool) :
    (getCurrentState σ b).post.nextId = σ.nextId := by
  unfold getCurrentState
  rcases hc : σ.cache with _ | s
  · by_cases hr : σ.registered = false
    · simp [hr]
    · by_cases hb : b
      · simp [hr, hb]
      · rcases hh : (orderByIdDesc σ.records).head? with _ | r <;> simp [hr, hb, hh]
  · rfl

/-- Cache soundness: any cached value equals the max-id record's state. -/
def cacheConsistent (σ : EntityState) : Prop :=
  ∀ s, σ.cache = some s → maxIdState σ.records = some s

theorem getCurrentState_value_of_consistent (σ : EntityState)
    (hreg : σ.registered = true) (hcc : cacheConsistent σ) (hne : σ.records ≠ []) :
    (getCurrentState σ false).value = maxIdState σ.records := by
  unfold getCurrentState
  rcases hc : σ.cache with _ | s
  · have hr : ¬ σ.registered = false := by simp [hreg]
    rcases hh : (orderByIdDesc σ.records).head? with _ | r
    · exfalso
      exact hne ((orderByIdDesc_eq_nil_iff σ.records).mp (List.head?_eq_none_iff.mp hh))
    · simp [hr, maxIdState, hh]
  · exact (hcc s hc).symm

/-- The post-state of a read is either unchanged or the cache warmed with the
max-id record's state. -/
theorem getCurrentState_post (σ : EntityState) (b : Bool) :
    (getCurrentState σ b).post = σ ∨
      ∃ r, (orderByIdDesc σ.records).head? = some r ∧
        (getCurrentState σ b).post = { σ with cache := some r.state } := by
  unfold getCurrentState
  rcases hc : σ.cache with _ | s
  · by_cases hr : σ.registered = false
    · simp [hr]
    · by_cases hb : b
      · simp [hr, hb]
      · rcases hh : (orderByIdDesc σ.records).head? with _ | r
        · simp [hr, hb, hh]
        · right
          exact ⟨r, rfl, by simp [hr, hb]⟩
  · simp

theorem getCurrentState_preserves_consistent (σ : EntityState) (b : Bool)
    (hcc : cacheConsistent σ) : cacheConsistent (getCurrentState σ b).post := by
  rcases getCurrentState_post σ b with h | ⟨r, hh, h⟩
  · rw [h]; exact hcc
  · rw [h]
    intro s hs
    simp only [Option.some.injEq] at hs
    simp [maxIdState, hh, ← hs]

theorem invalidateCache_preserves_consistent (σ : EntityState) :
    cacheConsistent (invalidateCache σ) := by
  intro s h
  simp [invalidateCache] at h

end ReadLemmas

/-- Failure injection for one `StateManager.transition_state` call, covering the
external collaborators the source interacts with: the read inside the call can
raise (swallowed by `get_current_state`); the state model's optional
`get_denormalized_fields` classmethod (`hasattr` check at
`fsm/state_manager.py` line 193) is absent (`none`), returns fields, or raises;
the `objects.create` insert can raise; and the `cache.set` inside the atomic
block can raise. -/
structure WriteEnv where
  readFails : Bool
  modelDenorm : Option (Except String (List (String × String)))
  insertFails : Option String
  cacheSetFails : Option String
  deriving Repr

/-- Environment in which every collaborator call succeeds and the state model
has no `get_denormalized_fields` attribute (the case of the three core state
models in `fsm/models.py`). -/
def benignEnv : WriteEnv := ⟨false, none, none, none⟩

/-- Outcome of `StateManager.transition_state`: the returned boolean together
with the post-state, or the raised error message together with the post-state. -/
inductive TransitionOutcome where
  | ok (returned : Bool) (post : EntityState)
  | error (msg : String) (post : EntityState)
  deriving Repr, DecidableEq

/-- Insert-plus-cache-update phase of `StateManager.transition_state` (the body
of the `transaction.atomic()` block after the denormalized fields were
computed, plus the `except` handler): on insert or cache-set failure the
transaction rolls back (records unchanged), the cache entry is deleted and a
wrapped `StateManagerError` is raised; on success the record is appended with a
fresh id, the cache is set to the new state, and `True` is returned. -/
def transitionInsertPhase (σ₁ : EntityState) (env : WriteEnv) (new_state : String)
    (tname : Option String) (reason : String) (current : Option String)
    (fields : List (String × String)) : TransitionOutcome :=
  match env.insertFails with
  | some e => .error ("Failed to transition state: " ++ e) { σ₁ with cache := none }
  | none =>
    match env.cacheSetFails with
    | some e => .error ("Failed to transition state: " ++ e) { σ₁ with cache := none }
    | none =>
      .ok true { σ₁ with
        records := σ₁.records ++ [⟨σ₁.nextId, new_state, current, tname, reason, fields⟩],
        cache := some new_state,
        nextId := σ₁.nextId + 1 }

/-- `StateManager.transition_state` (`fsm/state_manager.py` lines 134-225):
fail fast with a `StateManagerError` if no state model is registered (before
the atomic unit, cache untouched); read the current state through the cached
accessor to populate `previous_state`; then, inside the atomic unit, compute
the denormalized fields via the state model's own `get_denormalized_fields`
when present, insert the new record and set the cache. Any exception inside
the atomic unit (a raising `get_denormalized_fields`, a failing insert, a
failing cache set) deletes the cache entry and raises a wrapped
`StateManagerError`. -/
def transitionState (σ : EntityState) (env : WriteEnv) (new_state : String)
    (tname : Option String) (reason : String) : TransitionOutcome :=
  if σ.registered = false then
    .error "No state model found" σ
  else
    let r := getCurrentState σ env.readFails
    match env.modelDenorm with
    | some (.error e) =>
      .error ("Failed to transition state: " ++ e) { r.post with cache := none }
    | some (.ok fs) => transitionInsertPhase r.post env new_state tname reason r.value fs
    | none => transitionInsertPhase r.post env new_state tname reason r.value []

/-- `StateModelRegistry.get_denormalized_fields` (`fsm/registry.py` lines
177-196): if a denormalizer is registered, call it; a raising denormalizer is
logged and suppressed and the empty map is returned; with no registered
denormalizer the empty map is returned. The argument is the registered
denormalizer's presence and outcome on the given entity. -/
def getDenormalizedFields
    (denormalizer : Option (Except String (List (String × String)))) :
    List (String × String) :=
  match denormalizer with
  | some (.ok fs) => fs
  | some (.error _) => []
  | none => []

/-- One step of the read-path interleavings of claim C1: a
`get_current_state` call or an `invalidate_cache` call. -/
inductive ReadOp where
  | get
  | invalidate
  deriving Repr, DecidableEq

/-- Run a sequence of interleaved `get_current_state` and `invalidate_cache`
calls against the entity. -/
def runReadOps (σ : EntityState) : List ReadOp → EntityState
  | [] => σ
  | .get :: ops => runReadOps (getCurrentState σ false).post ops
  | .invalidate :: ops => runReadOps (invalidateCache σ) ops

theorem runReadOps_records (σ : EntityState) (ops : List ReadOp) :
    (runReadOps σ ops).records = σ.records := by
  induction ops generalizing σ with
  | nil => rfl
  | cons op ops ih =>
    cases op with
    | get => rw [runReadOps, ih, getCurrentState_records]
    | invalidate => rw [runReadOps, ih]; rfl

theorem runReadOps_registered (σ : EntityState) (ops : List ReadOp) :
    (runReadOps σ ops).registered = σ.registered := by
  induction ops generalizing σ with
  | nil => rfl
  | cons op ops ih =>
    cases op with
    | get => rw [runReadOps, ih, getCurrentState_registered]
    | invalidate => rw [runReadOps, ih]; rfl

theorem runReadOps_consistent (σ : EntityState) (ops : List ReadOp)
    (hcc : cacheConsistent σ) : cacheConsistent (runReadOps σ ops) := by
  induction ops generalizing σ with
  | nil => exact hcc
  | cons op ops ih =>
    cases op with
    | get => exact ih _ (getCurrentState_preserves_consistent σ false hcc)
    | invalidate => exact ih _ (invalidateCache_preserves_consistent σ)

section TransitionLemmas

/-- Whether the state model's `get_denormalized_fields` classmethod is present
and raises in this environment. -/
def denormRaises (env : WriteEnv) : Bool :=
  match env.modelDenorm with
  | some (.error _) => true
  | _ => false

/-- The denormalized fields actually written when the denormalization step does
not raise: the classmethod's result, or the empty map when the attribute is
absent. -/
def denormFieldsOf (env : WriteEnv) : List (String × String) :=
  match env.modelDenorm with
  | some (.ok fs) => fs
  | _ => []

theorem transitionState_unregistered (σ : EntityState) (env : WriteEnv)
    (ns : String) (tn : Option String) (rs : String) (hreg : σ.registered = false) :
    transitionState σ env ns tn rs = .error "No state model found" σ := by
  simp [transitionState, hreg]

theorem transitionState_denorm_error (σ : EntityState) (env : WriteEnv)
    (ns : String) (tn : Option String) (rs : String) (e : String)
    (hreg : σ.registered = true) (hd : env.modelDenorm = some (.error e)) :
    transitionState σ env ns tn rs =
      .error ("Failed to transition state: " ++ e)
        { (getCurrentState σ env.readFails).post with cache := none } := by
  simp [transitionState, hreg, hd]

theorem transitionState_insert_error (σ : EntityState) (env : WriteEnv)
    (ns : String) (tn : Option String) (rs : String) (e : String)
    (hreg : σ.registered = true) (hd : denormRaises env = false)
    (hi : env.insertFails = some e) :
    transitionState σ env ns tn rs =
      .error ("Failed to transition state: " ++ e)
        { (getCurrentState σ env.readFails).post with cache := none } := by
  rcases hm : env.modelDenorm with _ | x
  · simp [transitionState, transitionInsertPhase, hreg, hm, hi]
  · rcases x with e' | fs
    · simp [denormRaises, hm] at hd
    · simp [transitionState, transitionInsertPhase, hreg, hm, hi]

theorem transitionState_cacheset_error (σ : EntityState) (env : WriteEnv)
    (ns : String) (tn : Option String) (rs : String) (e : String)
    (hreg : σ.registered = true) (hd : denormRaises env = false)
    (hi : env.insertFails = none) (hc : env.cacheSetFails = some e) :
    transitionState σ env ns tn rs =
      .error ("Failed to transition state: " ++ e)
        { (getCurrentState σ env.readFails).post with cache := none } := by
  rcases hm : env.modelDenorm with _ | x
  · simp [transitionState, transitionInsertPhase, hreg, hm, hi, hc]
  · rcases x with e' | fs
    · simp [denormRaises, hm] at hd
    · simp [transitionState, transitionInsertPhase, hreg, hm, hi, hc]

theorem transitionState_success (σ : EntityState) (env : WriteEnv)
    (ns : String) (tn : Option String) (rs : String)
    (hreg : σ.registered = true) (hd : denormRaises env = false)
    (hi : env.insertFails = none) (hc : env.cacheSetFails = none) :
    transitionState σ env ns tn rs =
      .ok true
        { (getCurrentState σ env.readFails).post with
          records := (getCurrentState σ env.readFails).post.records ++
            [⟨(getCurrentState σ env.readFails).post.nextId, ns,
              (getCurrentState σ env.readFails).value, tn, rs, denormFieldsOf env⟩],
          cache := some ns,
          nextId := (getCurrentState σ env.readFails).post.nextId + 1 } := by
  rcases hm : env.modelDenorm with _ | x
  · simp [transitionState, transitionInsertPhase, hreg, hm, hi, hc, denormFieldsOf]
  · rcases x with e' | fs
    · simp [denormRaises, hm] at hd
    · simp [transitionState, transitionInsertPhase, hreg, hm, hi, hc, denormFieldsOf]

end TransitionLemmas

section SequentialRuns

/-- An entity that has never transitioned, with a registered state type. -/
def initialEntityState : EntityState :=
  ⟨[], none, true, 0⟩

/-- Apply a sequence of `transition_state` calls (one per requested new state)
to the entity, sequentially (no concurrent writers), with every collaborator
call succeeding. -/
def runTransitions (σ : EntityState) : List String → EntityState
  | [] => σ
  | s :: rest =>
    match transitionState σ benignEnv s none "" with
    | .ok _ σ' => runTransitions σ' rest
    | .error _ σ' => runTransitions σ' rest

/-- Whether every call in the sequential run returned `True`. -/
def runTransitionsOk (σ : EntityState) : List String → Bool
  | [] => true
  | s :: rest =>
    match transitionState σ benignEnv s none "" with
    | .ok true σ' => runTransitionsOk σ' rest
    | _ => false

/-- The state label carried into the next record's `previous_state`: the last
state of the list, or the inherited one when the list is empty. -/
def chainPrev (prev : Option String) : List String → Option String
  | [] => prev
  | s :: rest => chainPrev (some s) rest

/-- The records a sequential failure-free run writes: ids count up from `i`,
each record's `previous_state` is the preceding record's state. -/
def buildChain (prev : Option String) (i : Nat) : List String → List StateRecord
  | [] => []
  | s :: rest => ⟨i, s, prev, none, "", []⟩ :: buildChain (some s) (i + 1) rest

/-- The entity state after a sequential failure-free run of the given new
states from `initialEntityState`. -/
def stateAfter (ss : List String) : EntityState :=
  ⟨buildChain none 0 ss, chainPrev none ss, true, ss.length⟩

theorem chainPrev_isSome (rest : List String) (p : String) :
    ∃ q, chainPrev (some p) rest = some q := by
  induction rest generalizing p with
  | nil => exact ⟨p, rfl⟩
  | cons s rest ih => exact ih s

theorem chainPrev_append (ss : List String) (prev : Option String) (s : String) :
    chainPrev prev (ss ++ [s]) = some s := by
  induction ss generalizing prev with
  | nil => rfl
  | cons x xs ih => exact ih (some x)

theorem buildChain_append (ss : List String) (prev : Option String) (i : Nat)
    (s : String) :
    buildChain prev i (ss ++ [s]) =
      buildChain prev i ss ++ [⟨i + ss.length, s, chainPrev prev ss, none, "", []⟩] := by
  induction ss generalizing prev i with
  | nil => simp [buildChain, chainPrev]
  | cons x xs ih =>
    simp only [List.cons_append, buildChain, List.append_eq]
    rw [ih]
    have hn : i + 1 + xs.length = i + (x :: xs).length := by
      simp only [List.length_cons]; omega
    rw [hn]
    simp [chainPrev]

theorem getCurrentState_stateAfter (ss : List String) :
    (getCurrentState (stateAfter ss) false).value = chainPrev none ss ∧
      (getCurrentState (stateAfter ss) false).post = stateAfter ss := by
  cases ss with
  | nil => exact ⟨rfl, rfl⟩
  | cons s rest =>
    obtain ⟨q, hq⟩ := chainPrev_isSome rest s
    have hc : (stateAfter (s :: rest)).cache = some q := by
      simp [stateAfter, chainPrev, hq]
    constructor
    · show (getCurrentState (stateAfter (s :: rest)) false).value = chainPrev (some s) rest
      unfold getCurrentState
      rw [hc, hq]
    · unfold getCurrentState
      rw [hc]

theorem transitionState_stateAfter (ss : List String) (s : String) :
    transitionState (stateAfter ss) benignEnv s none "" =
      .ok true (stateAfter (ss ++ [s])) := by
  obtain ⟨hv, hp⟩ := getCurrentState_stateAfter ss
  rw [transitionState_success (stateAfter ss) benignEnv s none "" rfl rfl rfl rfl,
    show benignEnv.readFails = false from rfl, hp, hv]
  congr 1
  simp [stateAfter, buildChain_append, chainPrev_append, denormFieldsOf, benignEnv]

theorem runTransitions_stateAfter (rest ss : List String) :
    runTransitions (stateAfter ss) rest = stateAfter (ss ++ rest) := by
  induction rest generalizing ss with
  | nil => simp [runTransitions]
  | cons s rest ih =>
    rw [runTransitions, transitionState_stateAfter]
    show runTransitions (stateAfter (ss ++ [s])) rest = stateAfter (ss ++ s :: rest)
    rw [ih]
    simp

theorem runTransitionsOk_stateAfter (rest ss : List String) :
    runTransitionsOk (stateAfter ss) rest = true := by
  induction rest generalizing ss with
  | nil => rfl
  | cons s rest ih =>
    rw [runTransitionsOk, transitionState_stateAfter]
    show runTransitionsOk (stateAfter (ss ++ [s])) rest = true
    exact ih (ss ++ [s])

theorem buildChain_length (ss : List String) (prev : Option String) (i : Nat) :
    (buildChain prev i ss).length = ss.length := by
  induction ss generalizing prev i with
  | nil => rfl
  | cons s rest ih => simp [buildChain, ih]

theorem buildChain_id_ge (ss : List String) (prev : Option String) (i : Nat) :
    ∀ r ∈ buildChain prev i ss, i ≤ r.id := by
  induction ss generalizing prev i with
  | nil => intro r h; cases h
  | cons s rest ih =>
    intro r h
    rcases List.mem_cons.mp h with h | h
    · subst h; exact Nat.le_refl i
    · exact Nat.le_of_succ_le (ih (some s) (i + 1) r h)

theorem buildChain_pairwise (ss : List String) (prev : Option String) (i : Nat) :
    (buildChain prev i ss).Pairwise (fun a b => a.id < b.id) := by
  induction ss generalizing prev i with
  | nil => exact List.Pairwise.nil
  | cons s rest ih =>
    refine List.pairwise_cons.mpr ⟨?_, ih (some s) (i + 1)⟩
    intro r hr
    exact Nat.lt_of_lt_of_le (Nat.lt_succ_self i) (buildChain_id_ge rest (some s) (i + 1) r hr)

theorem buildChain_chain (ss : List String) (prev : Option String) (i : Nat) :
    List.Chain' (fun a b => b.previous_state = some a.state) (buildChain prev i ss) := by
  induction ss generalizing prev i with
  | nil => exact List.chain'_nil
  | cons s rest ih =>
    refine List.chain'_cons'.mpr ⟨?_, ih (some s) (i + 1)⟩
    intro b hb
    cases rest with
    | nil => cases hb
    | cons t rest' =>
      simp only [buildChain, List.head?_cons, Option.mem_def, Option.some.injEq] at hb
      rw [← hb]

theorem buildChain_head_prev (ss : List String) (prev : Option String) (i : Nat) :
    ∀ r, (buildChain prev i ss).head? = some r → r.previous_state = prev := by
  cases ss with
  | nil => intro r h; cases h
  | cons s rest =>
    intro r h
    simp only [buildChain, List.head?_cons, Option.some.injEq] at h
    rw [← h]

end SequentialRuns

section ApiLayer

/-- Whitespace characters stripped by Python's `str.strip()`, restricted to the
ASCII whitespace relevant to state labels. -/
def isPySpace (c : Char) : Bool :=
  c == ' ' || c == '\t' || c == '\n' || c == '\r' || c == '\x0b' || c == '\x0c'

/-- Python's `value.strip()`: drop leading and trailing whitespace. -/
def pyStrip (s : String) : String :=
  ⟨((s.data.dropWhile isPySpace).reverse.dropWhile isPySpace).reverse⟩

/-- Python's `value.upper()` on state labels: letters upper-cased. -/
def pyUpper (s : String) : String :=
  ⟨s.data.map Char.toUpper⟩

/-- `StateTransitionSerializer.validate_new_state` (`fsm/serializers.py` lines
63-67): reject an empty or whitespace-only `new_state` with a validation
error, otherwise return the trimmed upper-cased value. -/
def validate_new_state (value : String) : Except String String :=
  if value = "" ∨ pyStrip value = "" then .error "new_state cannot be empty"
  else .ok (pyUpper (pyStrip value))

/-- Outcome of the API transition endpoint: the success response (carrying the
`previous_state` read before the transition) or an error response, each with
the post-state of the entity. -/
inductive ApiResult where
  | success (previous_state : Option String) (post : EntityState)
  | failure (msg : String) (post : EntityState)
  deriving Repr

/-- `FSMViewSet.transition_state` (`fsm/api.py` lines 167-236): validate the
request body (a raising serializer is caught and returned as an error response,
with no transition attempted), read the current state for the response's
`previous_state`, then perform the transition through the state manager; a
raising transition is caught and returned as an error response. -/
def apiTransitionState (σ : EntityState) (env : WriteEnv) (raw : String)
    (tname : Option String) (reason : String) : ApiResult :=
  match validate_new_state raw with
  | .error e => .failure e σ
  | .ok ns =>
    match transitionState (getCurrentState σ env.readFails).post env ns tname reason with
    | .ok _ σ' => .success (getCurrentState σ env.readFails).value σ'
    | .error e σ' => .failure e σ'

end ApiLayer

section DeclarativeValidation

/-- One declared input-field constraint of a declarative transition class:
required or optional, with optional numeric lower and upper bounds. Modelled
from the spec: the Pydantic field declarations of a `BaseTransition` subclass
(section 4.3: required/optional, ranges), since Pydantic itself is an external
dependency not in the source tree. -/
structure FieldSpec where
  fname : String
  required : Bool
  lo : Option Int
  hi : Option Int
  deriving Repr, DecidableEq

/-- Violations of one declared field against the input data: a missing required
field, or a present value outside its declared bounds. Each entry is a
`(field, message)` pair, matching the `error['loc']`/`error['msg']` pairs that
`validate_transition_data` (`fsm/transition_utils.py` lines 169-194) extracts
from the aggregated validation error. -/
def checkField (data : List (String × Int)) (fs : FieldSpec) :
    List (String × String) :=
  match data.lookup fs.fname with
  | none => if fs.required then [(fs.fname, "field required")] else []
  | some v =>
    (match fs.lo with
     | some lo => if v < lo then [(fs.fname, "value below minimum")] else []
     | none => []) ++
    (match fs.hi with
     | some hi => if hi < v then [(fs.fname, "value above maximum")] else []
     | none => [])

/-- Modelled from the spec: Pydantic model construction aggregates the
violations of every declared field constraint into one validation error
(section 4.3: "invalid input fails fast with a structured validation error
... listing every violated field, not just the first"). Pydantic is an
external dependency not in the source tree. -/
def validationErrors (specs : List FieldSpec) (data : List (String × Int)) :
    List (String × String) :=
  (specs.map (checkField data)).flatten

/-- A declarative transition class as seen by
`TransitionRegistry.execute_transition`: its declared input fields and its
instance-level target state. -/
structure DeclTransitionClass where
  fields : List FieldSpec
  target_state : String
  deriving Repr, DecidableEq

/-- Outcome of `TransitionRegistry.execute_transition`: unknown transition
name (a "not found" error, distinct from validation failure), a construction
time validation error carrying every violation, or the executed write. -/
inductive ExecResult where
  | notFound (post : EntityState)
  | validationError (violations : List (String × String)) (post : EntityState)
  | executed (outcome : TransitionOutcome)
  deriving Repr

/-- `TransitionRegistry.execute_transition` (`fsm/transitions.py` lines
390-442): look up the transition class (unknown name raises a "not found"
error), construct the transition instance from the input data — Pydantic
construction validates every declared constraint and raises one aggregated
validation error before any state is touched — then build the context and
execute, which performs the write through `StateManager.transition_state`. -/
def executeTransitionByName (reg : List (String × DeclTransitionClass))
    (tname : String) (data : List (String × Int)) (σ : EntityState)
    (env : WriteEnv) : ExecResult :=
  match reg.lookup tname with
  | none => .notFound σ
  | some cls =>
    if validationErrors cls.fields data = [] then
      .executed (transitionState σ env cls.target_state (some tname) "")
    else
      .validationError (validationErrors cls.fields data) σ

end DeclarativeValidation

section ValidTransitionEnumeration

/-- A registered transition class as seen by `get_valid_transitions`
(`fsm/transition_utils.py` lines 83-129): its registry name, its class-level
`get_target_state()` result (`none` is the inherited default of
`BaseTransition.get_target_state`, `fsm/transitions.py` lines 145-155), and
its class-level `can_transition_from_state` check, a function of the context's
current state and target state that may raise. -/
structure TransitionClassView where
  tname : String
  class_target_state : Option String
  can_from : Option String → String → Except String Bool

/-- Evaluation of one candidate inside the per-candidate `try` of
`get_valid_transitions`: building the `TransitionContext` requires a string
`target_state` (`fsm/transitions.py` line 41), so a class-level
`get_target_state()` of `none` raises a construction error before the check
runs; otherwise the class-level check is invoked and may itself raise. -/
def evalCandidate (cur : Option String) (c : TransitionClassView) :
    Except String Bool :=
  match c.class_target_state with
  | none => .error "target_state must be a string"
  | some ts => c.can_from cur ts

/-- Whether the per-candidate `try` body ends with the candidate added to the
valid map: any raised error is swallowed and the candidate skipped. -/
def candidateKeeps (cur : Option String) (c : TransitionClassView) : Bool :=
  match evalCandidate cur c with
  | .ok true => true
  | _ => false

/-- `get_valid_transitions` (`fsm/transition_utils.py` lines 83-129): filter
the registered transition classes of the entity's type, keeping exactly those
whose class-level check evaluates to true against the entity's current state
(read per candidate through `get_current_state_object`, the max-id record). -/
def getValidTransitions (σ : EntityState) (classes : List TransitionClassView) :
    List TransitionClassView :=
  classes.filter (candidateKeeps (maxIdState σ.records))

end ValidTransitionEnumeration

/-- Claim C1: for every entity with at least one state record (registered
state type, cache sound), `StateManager.get_current_state` returns the `state`
field of the entity's state record with the numerically largest id, and this
holds across any number of interleaved `invalidate_cache` (and read) calls:
every value the cache serves equals the state of the max-id record, and cache
soundness is preserved. -/
theorem claim_C1_current_state_is_max_id (σ : EntityState) (ops : List ReadOp)
    (hreg : σ.registered = true) (hcc : cacheConsistent σ)
    (hne : σ.records ≠ []) :
    (getCurrentState (runReadOps σ ops) false).value = maxIdState σ.records ∧
      cacheConsistent (runReadOps σ ops) := by
  have h1 := runReadOps_records σ ops
  have h2 := runReadOps_registered σ ops
  have h3 := runReadOps_consistent σ ops hcc
  refine ⟨?_, h3⟩
  rw [getCurrentState_value_of_consistent _ (by rw [h2, hreg]) h3
    (by rw [h1]; exact hne), h1]

/-- Witness for claim C1 at a one-record entity and an interleaving of
invalidations and reads. -/
theorem claim_C1_current_state_is_max_id_witness :
    (getCurrentState (runReadOps ⟨[⟨5, "CREATED", none, none, "", []⟩], none, true, 6⟩
        [ReadOp.invalidate, ReadOp.get, ReadOp.invalidate]) false).value =
      maxIdState [⟨5, "CREATED", none, none, "", []⟩] :=
  (claim_C1_current_state_is_max_id _ _ rfl (fun s h => by simp at h) (by simp)).1

/-- Claim C2: `StateManager.transition_state` returns `True` exactly when the
whole operation succeeds; on any failure inside the atomic
insert-plus-cache-update unit it deletes (does not set) the entity's cache
entry and raises a wrapped manager error; no execution path returns `False`. -/
theorem claim_C2_transition_returns_true_or_raises (σ : EntityState)
    (env : WriteEnv) (ns : String) (tn : Option String) (rs : String) :
    (∀ b σ', transitionState σ env ns tn rs = .ok b σ' → b = true) ∧
    ((∃ σ', transitionState σ env ns tn rs = .ok true σ') ↔
      σ.registered = true ∧ denormRaises env = false ∧
        env.insertFails = none ∧ env.cacheSetFails = none) ∧
    (∀ e σ', σ.registered = true → transitionState σ env ns tn rs = .error e σ' →
      σ'.cache = none ∧ ∃ m, e = "Failed to transition state: " ++ m) := by
  by_cases hreg : σ.registered = true
  · by_cases hdr : denormRaises env = true
    · obtain ⟨e, hm⟩ : ∃ e, env.modelDenorm = some (.error e) := by
        rcases h : env.modelDenorm with _ | x
        · simp [denormRaises, h] at hdr
        · rcases x with e | fs
          · exact ⟨e, rfl⟩
          · simp [denormRaises, h] at hdr
      rw [transitionState_denorm_error σ env ns tn rs e hreg hm]
      refine ⟨fun b σ' h => by simp at h, ?_, fun e' σ' hx h => ?_⟩
      · constructor
        · rintro ⟨σ', h⟩; simp at h
        · rintro ⟨-, h2, -, -⟩; rw [hdr] at h2; exact absurd h2 (by simp)
      · injection h with h1 h2
        subst h1
        subst h2
        exact ⟨rfl, e, rfl⟩
    · have hdr' : denormRaises env = false := by
        cases h : denormRaises env
        · rfl
        · exact absurd h hdr
      rcases hi : env.insertFails with _ | e
      · rcases hc : env.cacheSetFails with _ | e
        · rw [transitionState_success σ env ns tn rs hreg hdr' hi hc]
          refine ⟨fun b σ' h => ?_, ?_, fun e σ' hx h => by simp at h⟩
          · injection h with h1 h2
            exact h1.symm
          · exact ⟨fun _ => ⟨hreg, hdr', rfl, rfl⟩, fun _ => ⟨_, rfl⟩⟩
        · rw [transitionState_cacheset_error σ env ns tn rs e hreg hdr' hi hc]
          refine ⟨fun b σ' h => by simp at h, ?_, fun e' σ' hx h => ?_⟩
          · constructor
            · rintro ⟨σ', h⟩; simp at h
            · rintro ⟨-, -, -, h4⟩; exact absurd h4 (by simp)
          · injection h with h1 h2
            subst h1
            subst h2
            exact ⟨rfl, e, rfl⟩
      · rw [transitionState_insert_error σ env ns tn rs e hreg hdr' hi]
        refine ⟨fun b σ' h => by simp at h, ?_, fun e' σ' hx h => ?_⟩
        · constructor
          · rintro ⟨σ', h⟩; simp at h
          · rintro ⟨-, -, h3, -⟩; exact absurd h3 (by simp)
        · injection h with h1 h2
          subst h1
          subst h2
          exact ⟨rfl, e, rfl⟩
  · have hregf : σ.registered = false := by
      cases h : σ.registered
      · rfl
      · exact absurd h hreg
    rw [transitionState_unregistered σ env ns tn rs hregf]
    refine ⟨fun b σ' h => by simp at h, ?_, fun e σ' hx h => absurd hx hreg⟩
    constructor
    · rintro ⟨σ', h⟩; simp at h
    · rintro ⟨h1, -⟩; exact absurd h1 hreg

/-- Witness for claim C2: an insert failure at a concrete entity raises a
wrapped manager error with the cache entry deleted. -/
theorem claim_C2_transition_returns_true_or_raises_witness :
    (⟨[], none, true, 0⟩ : EntityState).cache = none ∧
      ∃ m, "Failed to transition state: boom" = "Failed to transition state: " ++ m :=
  (claim_C2_transition_returns_true_or_raises ⟨[], none, true, 0⟩
      ⟨false, none, some "boom", none⟩ "X" none "").2.2
    "Failed to transition state: boom" ⟨[], none, true, 0⟩ rfl (by rfl)

/-- Claim C3: a sequence of N successful `transition_state` calls on one
entity with no concurrent writers makes `get_state_history(entity, limit=N)`
return exactly N records in strictly decreasing id order; each record's
`previous_state` equals the state of the record with the next-lower id
(its successor in the returned, newest-first list), and the oldest record's
`previous_state` is null. -/
theorem claim_C3_history_of_sequential_run (states : List String) :
    runTransitionsOk initialEntityState states = true ∧
    (getStateHistory (runTransitions initialEntityState states)
        states.length).length = states.length ∧
    List.Pairwise (fun a b => b.id < a.id)
      (getStateHistory (runTransitions initialEntityState states) states.length) ∧
    List.Chain' (fun a b => a.previous_state = some b.state)
      (getStateHistory (runTransitions initialEntityState states) states.length) ∧
    (∀ r, (getStateHistory (runTransitions initialEntityState states)
        states.length).getLast? = some r → r.previous_state = none) := by
  have h0 : initialEntityState = stateAfter [] := rfl
  have hrun : runTransitions initialEntityState states = stateAfter states := by
    rw [h0, runTransitions_stateAfter]
    simp
  have hist : getStateHistory (stateAfter states) states.length =
      (buildChain none 0 states).reverse := by
    unfold getStateHistory
    rw [if_neg (by simp [stateAfter] : ¬ (stateAfter states).registered = false)]
    show (orderByIdDesc (buildChain none 0 states)).take states.length = _
    rw [orderByIdDesc_of_pairwise _ (buildChain_pairwise states none 0)]
    rw [show states.length = (buildChain none 0 states).reverse.length from by
      simp [buildChain_length]]
    exact List.take_length _
  rw [hrun, hist]
  refine ⟨?_, ?_, ?_, ?_, ?_⟩
  · rw [h0]
    exact runTransitionsOk_stateAfter states []
  · simp [buildChain_length]
  · exact List.pairwise_reverse.mpr (buildChain_pairwise states none 0)
  · exact List.chain'_reverse.mpr (buildChain_chain states none 0)
  · intro r h
    rw [List.getLast?_reverse] at h
    exact buildChain_head_prev states none 0 r h

/-- Witness for claim C3 at a concrete two-transition run. -/
theorem claim_C3_history_of_sequential_run_witness :
    runTransitionsOk initialEntityState ["CREATED", "IN_PROGRESS"] = true ∧
    (⟨0, "CREATED", none, none, "", []⟩ : StateRecord).previous_state = none :=
  ⟨(claim_C3_history_of_sequential_run ["CREATED", "IN_PROGRESS"]).1,
   (claim_C3_history_of_sequential_run ["CREATED", "IN_PROGRESS"]).2.2.2.2
     ⟨0, "CREATED", none, none, "", []⟩ (by rfl)⟩

/-- Inversion of a successful `transition_state`: whenever the call returns,
exactly one record was appended, carrying the requested new state. -/
theorem transitionState_ok_records (σ : EntityState) (env : WriteEnv)
    (ns : String) (tn : Option String) (rs : String) (b : Bool) (σ' : EntityState)
    (h : transitionState σ env ns tn rs = .ok b σ') :
    ∃ rec : StateRecord, σ'.records = σ.records ++ [rec] ∧ rec.state = ns := by
  by_cases hreg : σ.registered = true
  · by_cases hdr : denormRaises env = true
    · obtain ⟨e, hm⟩ : ∃ e, env.modelDenorm = some (.error e) := by
        rcases hx : env.modelDenorm with _ | x
        · simp [denormRaises, hx] at hdr
        · rcases x with e | fs
          · exact ⟨e, rfl⟩
          · simp [denormRaises, hx] at hdr
      rw [transitionState_denorm_error σ env ns tn rs e hreg hm] at h
      simp at h
    · have hdr' : denormRaises env = false := by
        cases hx : denormRaises env
        · rfl
        · exact absurd hx hdr
      rcases hi : env.insertFails with _ | e
      · rcases hc : env.cacheSetFails with _ | e
        · rw [transitionState_success σ env ns tn rs hreg hdr' hi hc] at h
          injection h with h1 h2
          refine ⟨⟨(getCurrentState σ env.readFails).post.nextId, ns,
            (getCurrentState σ env.readFails).value, tn, rs, denormFieldsOf env⟩, ?_, rfl⟩
          rw [← h2]
          show (getCurrentState σ env.readFails).post.records ++ _ = σ.records ++ _
          rw [getCurrentState_records]
        · rw [transitionState_cacheset_error σ env ns tn rs e hreg hdr' hi hc] at h
          simp at h
      · rw [transitionState_insert_error σ env ns tn rs e hreg hdr' hi] at h
        simp at h
  · have hregf : σ.registered = false := by
      cases hx : σ.registered
      · rfl
      · exact absurd hx hreg
    rw [transitionState_unregistered σ env ns tn rs hregf] at h
    simp at h

/-- Counterexample to claim C4: at a registered entity with no prior records,
a state model whose `get_denormalized_fields` classmethod raises makes
`transition_state` fail with a wrapped manager error — the raising
denormalization is not suppressed, no record is inserted, and the call does
not succeed. -/
theorem claim_C4_denorm_failure_counterexample :
    transitionState ⟨[], none, true, 0⟩ ⟨false, some (.error "boom"), none, none⟩
        "COMPLETED" none "" =
      .error ("Failed to transition state: " ++ "boom") ⟨[], none, true, 0⟩ := rfl

/-- Claim C4 amended: a failure inside a denormalizer invoked through
`StateModelRegistry.get_denormalized_fields` is suppressed and yields the
empty map; but `transition_state` computes denormalized fields by calling the
state model's own `get_denormalized_fields` inside the atomic unit, so if that
call raises the transition fails (cache entry deleted, wrapped manager error
raised); only when the state model has no such attribute are the denormalized
fields simply omitted (empty map) with the transition still succeeding. -/
theorem claim_C4_denorm_failure_behaviour (σ : EntityState) (env : WriteEnv)
    (ns : String) (tn : Option String) (rs : String) (e : String)
    (hreg : σ.registered = true) :
    getDenormalizedFields (some (.error e)) = [] ∧
    getDenormalizedFields none = [] ∧
    (env.modelDenorm = some (.error e) →
      transitionState σ env ns tn rs =
        .error ("Failed to transition state: " ++ e)
          { (getCurrentState σ env.readFails).post with cache := none }) ∧
    (env.modelDenorm = none → env.insertFails = none → env.cacheSetFails = none →
      transitionState σ env ns tn rs =
        .ok true { (getCurrentState σ env.readFails).post with
          records := (getCurrentState σ env.readFails).post.records ++
            [⟨(getCurrentState σ env.readFails).post.nextId, ns,
              (getCurrentState σ env.readFails).value, tn, rs, []⟩],
          cache := some ns,
          nextId := (getCurrentState σ env.readFails).post.nextId + 1 }) := by
  refine ⟨rfl, rfl, fun hm => transitionState_denorm_error σ env ns tn rs e hreg hm,
    fun h1 h2 h3 => ?_⟩
  rw [transitionState_success σ env ns tn rs hreg (by simp [denormRaises, h1]) h2 h3]
  simp [denormFieldsOf, h1]

/-- Witness for claim C4 amended: the registry suppresses a raising
denormalizer, and a transition with no model-level denormalization attribute
succeeds with empty denormalized fields. -/
theorem claim_C4_denorm_failure_behaviour_witness :
    getDenormalizedFields (some (.error "boom")) = [] ∧
    transitionState ⟨[], none, true, 0⟩ benignEnv "CREATED" none "" =
      .ok true ⟨[⟨0, "CREATED", none, none, "", []⟩], some "CREATED", true, 1⟩ := by
  have h := claim_C4_denorm_failure_behaviour ⟨[], none, true, 0⟩ benignEnv
    "CREATED" none "" "boom" rfl
  exact ⟨h.1, h.2.2.2 rfl rfl rfl⟩

/-- Claim C5: a declarative transition whose input data violates several
independent declared constraints fails at construction, before any state
write, with a single validation error whose structured content lists every
violated field (all the violations, not just the first encountered); the
entity state returned is the untouched input state. -/
theorem claim_C5_validation_lists_all_violations
    (reg : List (String × DeclTransitionClass)) (tname : String)
    (cls : DeclTransitionClass) (data : List (String × Int))
    (σ : EntityState) (env : WriteEnv)
    (hcls : reg.lookup tname = some cls)
    (hviol : validationErrors cls.fields data ≠ []) :
    executeTransitionByName reg tname data σ env =
      .validationError (validationErrors cls.fields data) σ ∧
    ∀ fs ∈ cls.fields, ∀ v ∈ checkField data fs,
      v ∈ validationErrors cls.fields data := by
  constructor
  · simp only [executeTransitionByName, hcls]
    rw [if_neg hviol]
  · intro fs hfs v hv
    unfold validationErrors
    rw [List.mem_flatten]
    exact ⟨checkField data fs, List.mem_map.mpr ⟨fs, hfs, rfl⟩, hv⟩

/-- Witness for claim C5: three independently violated constraints (a missing
required field, a value below its minimum, a value above its maximum) all
appear in the single validation error, and the entity state is untouched. -/
theorem claim_C5_validation_lists_all_violations_witness :
    executeTransitionByName
        [("go", ⟨[⟨"a", true, none, none⟩, ⟨"b", true, some 0, none⟩,
          ⟨"c", true, none, some 10⟩], "DONE"⟩)]
        "go" [("b", -5), ("c", 20)] ⟨[], none, true, 0⟩ benignEnv =
      .validationError
        [("a", "field required"), ("b", "value below minimum"),
          ("c", "value above maximum")] ⟨[], none, true, 0⟩ ∧
    ("a", "field required") ∈ validationErrors
      [⟨"a", true, none, none⟩, ⟨"b", true, some 0, none⟩,
        ⟨"c", true, none, some 10⟩] [("b", -5), ("c", 20)] ∧
    ("b", "value below minimum") ∈ validationErrors
      [⟨"a", true, none, none⟩, ⟨"b", true, some 0, none⟩,
        ⟨"c", true, none, some 10⟩] [("b", -5), ("c", 20)] ∧
    ("c", "value above maximum") ∈ validationErrors
      [⟨"a", true, none, none⟩, ⟨"b", true, some 0, none⟩,
        ⟨"c", true, none, some 10⟩] [("b", -5), ("c", 20)] := by
  have h := claim_C5_validation_lists_all_violations
    [("go", ⟨[⟨"a", true, none, none⟩, ⟨"b", true, some 0, none⟩,
      ⟨"c", true, none, some 10⟩], "DONE"⟩)]
    "go" ⟨[⟨"a", true, none, none⟩, ⟨"b", true, some 0, none⟩,
      ⟨"c", true, none, some 10⟩], "DONE"⟩
    [("b", -5), ("c", 20)] ⟨[], none, true, 0⟩ benignEnv rfl (by decide)
  exact ⟨h.1,
    h.2 ⟨"a", true, none, none⟩ (by decide) ("a", "field required") (by decide),
    h.2 ⟨"b", true, some 0, none⟩ (by decide) ("b", "value below minimum") (by decide),
    h.2 ⟨"c", true, none, some 10⟩ (by decide) ("c", "value above maximum") (by decide)⟩

/-- Reduction of the API endpoint once the request body passed validation. -/
theorem apiTransitionState_validated (σ : EntityState) (env : WriteEnv)
    (raw : String) (tn : Option String) (rs : String)
    (hv : ¬(raw = "" ∨ pyStrip raw = "")) :
    apiTransitionState σ env raw tn rs =
      match transitionState (getCurrentState σ env.readFails).post env
          (pyUpper (pyStrip raw)) tn rs with
      | .ok _ σ' => .success (getCurrentState σ env.readFails).value σ'
      | .error e σ' => .failure e σ' := by
  unfold apiTransitionState validate_new_state
  rw [if_neg hv]

/-- Claim C6: a transition request accepted at the API surface stores a record
whose state is the requested `new_state` trimmed and upper-cased, and an empty
or whitespace-only `new_state` is rejected with a validation error before any
transition is attempted (the entity state is returned untouched). -/
theorem claim_C6_new_state_normalized (σ : EntityState) (env : WriteEnv)
    (raw : String) (tn : Option String) (rs : String) :
    (pyStrip raw = "" →
      apiTransitionState σ env raw tn rs = .failure "new_state cannot be empty" σ) ∧
    (∀ p σ', apiTransitionState σ env raw tn rs = .success p σ' →
      ∃ rec : StateRecord, σ'.records = σ.records ++ [rec] ∧
        rec.state = pyUpper (pyStrip raw)) := by
  constructor
  · intro h
    unfold apiTransitionState validate_new_state
    rw [if_pos (Or.inr h)]
  · intro p σ' h
    by_cases hv : raw = "" ∨ pyStrip raw = ""
    · unfold apiTransitionState validate_new_state at h
      rw [if_pos hv] at h
      simp at h
    · rw [apiTransitionState_validated σ env raw tn rs hv] at h
      rcases ht : transitionState (getCurrentState σ env.readFails).post env
          (pyUpper (pyStrip raw)) tn rs with ⟨b, σ''⟩ | ⟨e, σ''⟩
      · rw [ht] at h
        obtain ⟨rec, hrec, hstate⟩ := transitionState_ok_records _ env
          (pyUpper (pyStrip raw)) tn rs b σ'' ht
        injection h with h1 h2
        refine ⟨rec, ?_, hstate⟩
        rw [← h2, hrec, getCurrentState_records]
      · rw [ht] at h
        simp at h

/-- Witness for claim C6: the request `"  done "` is stored as `"DONE"`. -/
theorem claim_C6_new_state_normalized_witness :
    ∃ rec : StateRecord,
      (⟨[⟨0, "DONE", none, none, "", []⟩], some "DONE", true, 1⟩ : EntityState).records =
        (⟨[], none, true, 0⟩ : EntityState).records ++ [rec] ∧
      rec.state = pyUpper (pyStrip "  done ") :=
  (claim_C6_new_state_normalized ⟨[], none, true, 0⟩ benignEnv "  done " none "").2
    none ⟨[⟨0, "DONE", none, none, "", []⟩], some "DONE", true, 1⟩ (by rfl)

/-- Claim C7: `get_valid_transitions` returns exactly the registered transition
classes whose per-candidate evaluation (context construction followed by the
class-level `can_transition_from_state` check against the entity's current
state) returns true: a candidate whose check returns false or raises is
excluded, one whose check returns true is included, and candidates are judged
independently, so one raising candidate does not prevent enumeration of the
others. -/
theorem claim_C7_valid_transitions_characterized (σ : EntityState)
    (classes : List TransitionClassView) (c : TransitionClassView) :
    c ∈ getValidTransitions σ classes ↔
      c ∈ classes ∧ evalCandidate (maxIdState σ.records) c = .ok true := by
  unfold getValidTransitions
  rw [List.mem_filter]
  constructor
  · rintro ⟨h1, h2⟩
    refine ⟨h1, ?_⟩
    unfold candidateKeeps at h2
    rcases he : evalCandidate (maxIdState σ.records) c with e | b
    · rw [he] at h2
      simp at h2
    · cases b
      · rw [he] at h2
        simp at h2
      · rfl
  · rintro ⟨h1, h2⟩
    refine ⟨h1, ?_⟩
    unfold candidateKeeps
    rw [h2]

/-- Counterexample to claim C8: for an entity with a registered state type and
zero state records, `get_current_state` returns `None` and caches nothing
(the source only caches non-`None` results), so the second call issues a
persistence-substrate query again (1, not 0) instead of being served from the
cache — while still returning the same value. -/
theorem claim_C8_uncached_none_counterexample :
    (getCurrentState (getCurrentState ⟨[], none, true, 0⟩ false).post false).dbQueries = 1 ∧
    (getCurrentState (getCurrentState ⟨[], none, true, 0⟩ false).post false).value =
      (getCurrentState ⟨[], none, true, 0⟩ false).value :=
  ⟨rfl, rfl⟩

/-- Claim C8 amended: for every entity with a registered state type and at
least one state record, calling `get_current_state` twice with no intervening
transition returns the same value both times and the second call is served
from the cache, with no persistence-substrate query. -/
theorem claim_C8_second_read_cached (σ : EntityState)
    (hreg : σ.registered = true) (hne : σ.records ≠ []) :
    (getCurrentState (getCurrentState σ false).post false).value =
      (getCurrentState σ false).value ∧
    (getCurrentState (getCurrentState σ false).post false).dbQueries = 0 := by
  rcases hc : σ.cache with _ | s
  · obtain ⟨r, hr⟩ : ∃ r, (orderByIdDesc σ.records).head? = some r := by
      rcases hx : (orderByIdDesc σ.records).head? with _ | r
      · exact absurd ((orderByIdDesc_eq_nil_iff σ.records).mp
          (List.head?_eq_none_iff.mp hx)) hne
      · exact ⟨r, rfl⟩
    have h1 : getCurrentState σ false =
        ⟨some r.state, { σ with cache := some r.state }, 1⟩ := by
      simp [getCurrentState, hc, hreg, hr]
    rw [h1]
    constructor
    · show (getCurrentState { σ with cache := some r.state } false).value = some r.state
      simp [getCurrentState]
    · show (getCurrentState { σ with cache := some r.state } false).dbQueries = 0
      simp [getCurrentState]
  · have h1 : getCurrentState σ false = ⟨some s, σ, 0⟩ := by
      simp [getCurrentState, hc]
    constructor <;> simp [h1]

/-- Witness for claim C8 amended at a one-record entity. -/
theorem claim_C8_second_read_cached_witness :
    (getCurrentState (getCurrentState
        ⟨[⟨0, "CREATED", none, none, "", []⟩], none, true, 1⟩ false).post
      false).dbQueries = 0 :=
  (claim_C8_second_read_cached ⟨[⟨0, "CREATED", none, none, "", []⟩], none, true, 1⟩
    rfl (by simp)).2

/-- Claim C9: for an entity with a registered state type (and a cache miss, so
that the persistence query actually runs), a raising persistence-substrate
query inside `get_current_state` is caught: the call returns `None` instead of
propagating the error and writes nothing to the cache, making a read-path
failure indistinguishable at the public interface from reading an entity that
has never transitioned. -/
theorem claim_C9_read_failure_swallowed (σ : EntityState)
    (hreg : σ.registered = true) (hc : σ.cache = none) :
    getCurrentState σ true = ⟨none, σ, 1⟩ ∧
    getCurrentState { σ with records := [] } false =
      ⟨none, { σ with records := [] }, 1⟩ := by
  constructor
  · simp [getCurrentState, hc, hreg]
  · simp [getCurrentState, hc, hreg, orderByIdDesc]

/-- Witness for claim C9 with one stored record and a raising read. -/
theorem claim_C9_read_failure_swallowed_witness :
    getCurrentState ⟨[⟨0, "CREATED", none, none, "", []⟩], none, true, 1⟩ true =
      ⟨none, ⟨[⟨0, "CREATED", none, none, "", []⟩], none, true, 1⟩, 1⟩ :=
  (claim_C9_read_failure_swallowed ⟨[⟨0, "CREATED", none, none, "", []⟩], none, true, 1⟩
    rfl rfl).1

/-- Claim C10: `get_valid_transitions` excludes every registered transition
class whose class-level `get_target_state()` returns `None` (the inherited
default), regardless of what its `can_transition_from_state` check would
return: the `TransitionContext` requires a string `target_state`, so context
construction raises and the error is swallowed as "not valid". -/
theorem claim_C10_none_target_state_excluded (σ : EntityState)
    (classes : List TransitionClassView) (c : TransitionClassView)
    (hts : c.class_target_state = none) :
    c ∉ getValidTransitions σ classes := by
  intro hmem
  have h := (List.mem_filter.mp hmem).2
  unfold candidateKeeps evalCandidate at h
  rw [hts] at h
  simp at h

/-- Witness for claim C10: a candidate whose check always returns true is
still excluded when its class-level target state is `None`. -/
theorem claim_C10_none_target_state_excluded_witness :
    (⟨"finish", none, fun _ _ => .ok true⟩ : TransitionClassView) ∉
      getValidTransitions ⟨[], none, true, 0⟩
        [⟨"finish", none, fun _ _ => .ok true⟩] :=
  claim_C10_none_target_state_excluded _ _ _ rfl

end LSFsm
